import Mathlib

/-!
Shallow embedding of the StarForgeOS RF Tuning and Lap-Timing Engine
(src/src/timing_core.cpp, src/src/timing_core.h, src/src/config.h,
src/src/node_mode.cpp) together with proofs about the frozen claims.

Machine integers are modelled as Nat with explicit truncation (mod 2^8,
mod 2^16, mod 2^32) exactly where the C code performs a narrowing store
or wrap-around arithmetic.  Fixed C arrays are modelled as functions
Nat -> alpha updated with Function.update.  The hardware side effects
(GPIO writes, busy-wait delays) have no observable state in the engine
and are not modelled; the register value clocked out by the bit-banged
protocol is returned as an explicit output instead.
-/

set_option maxRecDepth 100000

namespace StarForge
/-! ### Constants from src/src/config.h -/

/-- MIN_FREQ from config.h (MHz). -/
def MIN_FREQ : Nat := 5645

/-- MAX_FREQ from config.h (MHz). -/
def MAX_FREQ : Nat := 5945

/-- DEFAULT_FREQ from config.h (MHz). -/
def DEFAULT_FREQ : Nat := 5800

/-- RSSI_SAMPLES from config.h: size of the moving-average window. -/
def RSSI_SAMPLES : Nat := 10

/-- CROSSING_THRESHOLD from config.h: default RSSI threshold. -/
def CROSSING_THRESHOLD : Nat := 100

/-- MAX_LAPS_STORED from config.h: capacity of the lap ring buffer. -/
def MAX_LAPS_STORED : Nat := 100

/-- Wrap-around subtraction of two uint32 values (the C expression a - b
on uint32 operands); both arguments are first reduced mod 2^32. -/
def sub32 (a b : Nat) : Nat := (a % 2 ^ 32 + (2 ^ 32 - b % 2 ^ 32)) % 2 ^ 32

/-! ### Data model from src/src/timing_core.h -/

/-- LapData from timing_core.h.  lap_time_ms is a uint16 field in the
source; values stored there are reduced mod 2^16. -/
structure LapData where
  timestamp_ms : Nat
  lap_time_ms : Nat
  rssi_peak : Nat
  pilot_id : Nat
  valid : Bool
  deriving Repr, DecidableEq

/-- The all-zero LapData produced by memset and by the empty-buffer
branches of getNextLap / getLastLap. -/
def LapData.zero : LapData := ⟨0, 0, 0, 0, false⟩

/-- TimingState from timing_core.h.  The fields nadir_rssi,
pass_rssi_nadir, last_rssi and rssi_change are used throughout
timing_core.cpp but are missing from the (stale) header in src;
their existence and meaning are taken from the spec, section 3.
rssi_change is the int8 trend value in {-1, 0, +1}. -/
structure TimingState where
  current_rssi : Nat
  peak_rssi : Nat
  nadir_rssi : Nat
  pass_rssi_nadir : Nat
  threshold : Nat
  crossing_active : Bool
  crossing_start : Nat
  last_lap_time : Nat
  lap_count : Nat
  frequency_mhz : Nat
  activated : Bool
  last_rssi : Nat
  rssi_change : Int
  deriving Repr, DecidableEq

/-- Extremum record.  Modelled from the spec: the struct declaration is
missing from src (the header in src predates the extremum tracker), but
its four fields rssi, first_time, duration, valid are dictated by every
use in timing_core.cpp and by spec section 3. -/
structure Extremum where
  rssi : Nat
  first_time : Nat
  duration : Nat
  valid : Bool
  deriving Repr, DecidableEq

/-- The all-zero Extremum produced by memset. -/
def Extremum.zero : Extremum := ⟨0, 0, 0, false⟩

/-- The whole private state of class TimingCore (timing_core.h plus the
extremum fields used by timing_core.cpp).  The extremum ring-buffer
capacity EXTREMUM_BUFFER_SIZE is missing from src; per the spec,
section 3, each extremum buffer is sized to a power of two so index
wrap uses a bitmask.  It is therefore passed to the operations below as
an explicit parameter (esz), constrained to be a power of two in the
theorems that depend on it. -/
structure TimingCore where
  state : TimingState
  lap_buffer : Nat → LapData
  lap_write_index : Nat
  lap_read_index : Nat
  rssi_samples : Nat → Nat
  sample_index : Nat
  samples_filled : Bool
  recent_freq_change : Bool
  freq_change_time : Nat
  peak_buffer : Nat → Extremum
  nadir_buffer : Nat → Extremum
  peak_write_index : Nat
  peak_read_index : Nat
  nadir_write_index : Nat
  nadir_read_index : Nat
  current_peak : Extremum
  current_nadir : Extremum

/-- The TimingCore constructor (timing_core.cpp lines 16-53): memset
zeroes, then threshold = CROSSING_THRESHOLD, frequency_mhz =
DEFAULT_FREQ, nadir_rssi = pass_rssi_nadir = 255, and
current_nadir.rssi = 255. -/
def initCore : TimingCore where
  state :=
    { current_rssi := 0, peak_rssi := 0, nadir_rssi := 255,
      pass_rssi_nadir := 255, threshold := CROSSING_THRESHOLD,
      crossing_active := false, crossing_start := 0, last_lap_time := 0,
      lap_count := 0, frequency_mhz := DEFAULT_FREQ, activated := false,
      last_rssi := 0, rssi_change := 0 }
  lap_buffer := fun _ => LapData.zero
  lap_write_index := 0
  lap_read_index := 0
  rssi_samples := fun _ => 0
  sample_index := 0
  samples_filled := false
  recent_freq_change := false
  freq_change_time := 0
  peak_buffer := fun _ => Extremum.zero
  nadir_buffer := fun _ => Extremum.zero
  peak_write_index := 0
  peak_read_index := 0
  nadir_write_index := 0
  nadir_read_index := 0
  current_peak := Extremum.zero
  current_nadir := { Extremum.zero with rssi := 255 }

/-! ### Register driver (timing_core.cpp lines 468-575) -/

/-- TimingCore::setRX5808Frequency.  The initial bus-spacing delay and
the bit-banged GPIO writes have no engine-visible state; the 16-bit
register value vtxHex that the 25-bit frame clocks out is returned as
the second component (none when the out-of-range branch returns before
transmitting).  now stands for the millis() call that stamps
freq_change_time. -/
def setRX5808Frequency (c : TimingCore) (now freq_mhz : Nat) :
    TimingCore × Option Nat :=
  if freq_mhz < MIN_FREQ ∨ freq_mhz > MAX_FREQ then (c, none)
  else
    let tf := (freq_mhz - 479) / 2
    let N := tf / 32
    let A := tf % 32
    let vtxHex := ((N <<< 7) + A) % 2 ^ 16
    ({ c with
        state := { c.state with frequency_mhz := freq_mhz },
        recent_freq_change := true,
        freq_change_time := now }, some vtxHex)

/-- TimingCore::setFrequency (timing_core.cpp lines 659-664): the public
mutex-protected wrapper; in this sequential model the mutex acquisition
always succeeds. -/
def setFrequency (c : TimingCore) (now freq_mhz : Nat) :
    TimingCore × Option Nat :=
  setRX5808Frequency c now freq_mhz

/-! ### Lap recording and the lap ring buffer
(timing_core.cpp lines 307-339 and 715-742) -/

/-- TimingCore::recordLap.  timestamp and state.last_lap_time are
uint32; their difference wraps mod 2^32 and the store into the uint16
field lap_time_ms truncates mod 2^16.  lap_count is uint16 and wraps.
The registered lap callback receives the new record and returns
nothing; it is not modelled. -/
def recordLap (c : TimingCore) (timestamp peak_rssi : Nat) : TimingCore :=
  let lap : LapData :=
    { timestamp_ms := timestamp % 2 ^ 32,
      lap_time_ms :=
        (if c.state.last_lap_time > 0 then sub32 timestamp c.state.last_lap_time
         else 0) % 2 ^ 16,
      rssi_peak := peak_rssi % 2 ^ 8,
      pilot_id := 0,
      valid := true }
  { c with
      lap_buffer := Function.update c.lap_buffer c.lap_write_index lap,
      state := { c.state with
                  last_lap_time := timestamp % 2 ^ 32,
                  lap_count := (c.state.lap_count + 1) % 2 ^ 16,
                  peak_rssi := 0 },
      lap_write_index := (c.lap_write_index + 1) % MAX_LAPS_STORED }

/-- TimingCore::hasNewLap (timing_core.cpp lines 715-717). -/
def hasNewLap (c : TimingCore) : Bool :=
  c.lap_read_index != c.lap_write_index

/-- TimingCore::getNextLap (timing_core.cpp lines 719-728). -/
def getNextLap (c : TimingCore) : TimingCore × LapData :=
  if ¬hasNewLap c then (c, LapData.zero)
  else
    ({ c with lap_read_index := (c.lap_read_index + 1) % MAX_LAPS_STORED },
     c.lap_buffer c.lap_read_index)

/-- TimingCore::getAvailableLaps (timing_core.cpp lines 740-742);
for indices below MAX_LAPS_STORED the Nat expression agrees with the C
one (the uint8 operands are promoted to int there). -/
def getAvailableLaps (c : TimingCore) : Nat :=
  (c.lap_write_index + MAX_LAPS_STORED - c.lap_read_index) % MAX_LAPS_STORED

/-! ### Crossing state machine (timing_core.cpp lines 185-214,
the crossing-handling section of TimingCore::timingTask) -/

/-- TimingCore::detectCrossing (timing_core.cpp lines 302-305). -/
def detectCrossing (c : TimingCore) (filtered_rssi : Nat) : Bool :=
  decide (filtered_rssi ≥ c.state.threshold)

/-- The crossing-transition block of TimingCore::timingTask
(timing_core.cpp lines 185-214): on a transition into a crossing the
start time is stamped; on a transition out, a lap is recorded only when
the crossing lasted strictly more than 100 ms, and then the pass nadir
is reset to 255.  current_time is a uint32 millis() value; the duration
subtraction wraps mod 2^32.  The crossing callback is notified on every
transition and returns nothing; it is not modelled. -/
def handleCrossing (c : TimingCore) (current_time filtered_rssi : Nat) :
    TimingCore :=
  let crossing_detected := detectCrossing c filtered_rssi
  if crossing_detected ≠ c.state.crossing_active then
    if crossing_detected then
      { c with state := { c.state with
          crossing_active := true, crossing_start := current_time } }
    else
      let c1 := { c with state := { c.state with crossing_active := false } }
      let crossing_duration := sub32 current_time c.state.crossing_start
      if crossing_duration > 100 then
        let c2 := recordLap c1 current_time c1.state.peak_rssi
        { c2 with state := { c2.state with pass_rssi_nadir := 255 } }
      else c1
  else c

/-! ### Claim C2: lap ring buffer overflow -/

/-- A core state after 99 laps have been recorded and none drained: the
lap ring buffer is full of unread laps (capacity MAX_LAPS_STORED = 100
slots distinguishes full from empty by read = write, so at most 99
entries are ever drainable). -/
def lapFloodState : TimingCore :=
  (List.range 99).foldl (fun c i => recordLap c (3000 * (i + 1)) 50) initCore

/-- A core state inside an active crossing that started at time 0, used
to witness C3. -/
def crossingCore : TimingCore :=
  { initCore with state := { initCore.state with
      crossing_active := true, crossing_start := 0, peak_rssi := 130 } }

/-! ### RSSI moving-average filter (timing_core.cpp lines 282-300) -/

/-- Sum of f 0 + ... + f (k-1): the for-loop accumulation in
TimingCore::filterRSSI.  The uint32 accumulator cannot overflow there
(at most 10 samples of at most 255), so plain Nat addition is exact. -/
def sumTo (f : Nat → Nat) : Nat → Nat
  | 0 => 0
  | k + 1 => sumTo f k + f k

/-- TimingCore::filterRSSI: push the raw sample into the circular
window, advance the index mod RSSI_SAMPLES, latch samples_filled once
the index wraps, and return the integer mean over the samples written
so far (the whole window once filled). -/
def filterRSSI (c : TimingCore) (raw_rssi : Nat) : TimingCore × Nat :=
  let samples := Function.update c.rssi_samples c.sample_index raw_rssi
  let idx := (c.sample_index + 1) % RSSI_SAMPLES
  let filled := c.samples_filled || (idx == 0)
  let count := if filled then RSSI_SAMPLES else idx
  let out := if count > 0 then sumTo samples count / count else raw_rssi
  ({ c with rssi_samples := samples, sample_index := idx,
            samples_filled := filled }, out)

/-- Feeding a whole sample sequence through the filter, keeping only the
evolving state. -/
def feedRSSI (c : TimingCore) (xs : List Nat) : TimingCore :=
  xs.foldl (fun c r => (filterRSSI c r).1) c

/-! ### Extremum tracker (timing_core.cpp lines 342-431 and 745-773).
The buffer capacity EXTREMUM_BUFFER_SIZE is missing from src (stale
header); modelled from the spec: each buffer is sized to a power of two
so index wrap uses a bitmask.  The capacity is passed explicitly as esz
and constrained to a power of two where the arithmetic needs it. -/

/-- TimingCore::bufferPeak (timing_core.cpp lines 413-421). -/
def bufferPeak (esz : Nat) (c : TimingCore) (peak : Extremum) : TimingCore :=
  let w := (c.peak_write_index + 1) &&& (esz - 1)
  let c1 := { c with
    peak_buffer := Function.update c.peak_buffer c.peak_write_index peak,
    peak_write_index := w }
  if w = c.peak_read_index then
    { c1 with peak_read_index := (c.peak_read_index + 1) &&& (esz - 1) }
  else c1

/-- TimingCore::bufferNadir (timing_core.cpp lines 423-431). -/
def bufferNadir (esz : Nat) (c : TimingCore) (nadir : Extremum) : TimingCore :=
  let w := (c.nadir_write_index + 1) &&& (esz - 1)
  let c1 := { c with
    nadir_buffer := Function.update c.nadir_buffer c.nadir_write_index nadir,
    nadir_write_index := w }
  if w = c.nadir_read_index then
    { c1 with nadir_read_index := (c.nadir_read_index + 1) &&& (esz - 1) }
  else c1

/-- TimingCore::finalizePeak (timing_core.cpp lines 392-400): buffer the
in-progress peak only when it is valid and its running maximum is
nonzero, then reset it to zero. -/
def finalizePeak (esz : Nat) (c : TimingCore) (timestamp : Nat) : TimingCore :=
  let c1 :=
    if c.current_peak.valid = true ∧ 0 < c.current_peak.rssi then
      bufferPeak esz c
        { c.current_peak with
            duration := sub32 timestamp c.current_peak.first_time }
    else c
  { c1 with current_peak := Extremum.zero }

/-- TimingCore::finalizeNadir (timing_core.cpp lines 402-411): buffer the
in-progress nadir only when it is valid and its running minimum is below
255, then reset it to the 255 sentinel. -/
def finalizeNadir (esz : Nat) (c : TimingCore) (timestamp : Nat) : TimingCore :=
  let c1 :=
    if c.current_nadir.valid = true ∧ c.current_nadir.rssi < 255 then
      bufferNadir esz c
        { c.current_nadir with
            duration := sub32 timestamp c.current_nadir.first_time }
    else c
  { c1 with current_nadir := { Extremum.zero with rssi := 255 } }

/-- The trend value computed at the top of TimingCore::processExtremums
(timing_core.cpp lines 344-349): +1 rising, -1 falling, 0 flat. -/
def rssiChangeOf (last_rssi filtered_rssi : Nat) : Int :=
  if filtered_rssi > last_rssi then 1
  else if filtered_rssi < last_rssi then -1
  else 0

/-- The current-peak tracking block of TimingCore::processExtremums
(timing_core.cpp lines 362-372); rc is the pre-update value of
state.rssi_change, nc the freshly computed trend. -/
def updateCurrentPeak (c1 : TimingCore) (nc rc : Int)
    (timestamp filtered_rssi : Nat) : TimingCore :=
  if nc > 0 ∨ rc = 0 then
    if filtered_rssi > c1.current_peak.rssi ∨ c1.current_peak.valid = false
    then
      let cp := { c1.current_peak with rssi := filtered_rssi }
      let cp :=
        if c1.current_peak.valid = false then
          { cp with first_time := timestamp, valid := true }
        else cp
      { c1 with current_peak := cp }
    else c1
  else c1

/-- The current-nadir tracking block of TimingCore::processExtremums
(timing_core.cpp lines 374-383). -/
def updateCurrentNadir (c2 : TimingCore) (nc rc : Int)
    (timestamp filtered_rssi : Nat) : TimingCore :=
  if nc < 0 ∨ rc = 0 then
    if filtered_rssi < c2.current_nadir.rssi ∨ c2.current_nadir.valid = false
    then
      let cn := { c2.current_nadir with rssi := filtered_rssi }
      let cn :=
        if c2.current_nadir.valid = false then
          { cn with first_time := timestamp, valid := true }
        else cn
      { c2 with current_nadir := cn }
    else c2
  else c2

/-- TimingCore::processExtremums (timing_core.cpp lines 342-390):
finalize an extremum on a trend flip, track the in-progress extremums,
then update the trend scratch state. -/
def processExtremums (esz : Nat) (c : TimingCore)
    (timestamp filtered_rssi : Nat) : TimingCore :=
  let new_change : Int := rssiChangeOf c.state.last_rssi filtered_rssi
  let c1 :=
    if c.state.rssi_change ≠ new_change ∧ new_change ≠ 0 then
      if c.state.rssi_change > 0 then finalizePeak esz c timestamp
      else if c.state.rssi_change < 0 then finalizeNadir esz c timestamp
      else c
    else c
  let c2 := updateCurrentPeak c1 new_change c.state.rssi_change
    timestamp filtered_rssi
  let c3 := updateCurrentNadir c2 new_change c.state.rssi_change
    timestamp filtered_rssi
  { c3 with state := { c3.state with
      last_rssi := filtered_rssi,
      rssi_change :=
        if new_change ≠ 0 then new_change else c3.state.rssi_change } }

/-- TimingCore::hasPendingPeak (timing_core.cpp lines 745-747). -/
def hasPendingPeak (c : TimingCore) : Bool :=
  c.peak_read_index != c.peak_write_index

/-- TimingCore::hasPendingNadir (timing_core.cpp lines 749-751). -/
def hasPendingNadir (c : TimingCore) : Bool :=
  c.nadir_read_index != c.nadir_write_index

/-- TimingCore::getNextPeak (timing_core.cpp lines 753-762). -/
def getNextPeak (esz : Nat) (c : TimingCore) : TimingCore × Extremum :=
  if ¬hasPendingPeak c then (c, Extremum.zero)
  else
    ({ c with peak_read_index := (c.peak_read_index + 1) &&& (esz - 1) },
     c.peak_buffer c.peak_read_index)

/-- TimingCore::getNextNadir (timing_core.cpp lines 764-773). -/
def getNextNadir (esz : Nat) (c : TimingCore) : TimingCore × Extremum :=
  if ¬hasPendingNadir c then (c, ⟨255, 0, 0, false⟩)
  else
    ({ c with nadir_read_index := (c.nadir_read_index + 1) &&& (esz - 1) },
     c.nadir_buffer c.nadir_read_index)

/-- Number of drainable entries of the peak buffer: how many times
getNextPeak succeeds before hasPendingPeak turns false (the analogue of
getAvailableLaps for the extremum buffers, which the source exposes only
through the hasPending / getNext pair). -/
def peakAvail (esz : Nat) (c : TimingCore) : Nat :=
  (c.peak_write_index + esz - c.peak_read_index) % esz

/-- Number of drainable entries of the nadir buffer. -/
def nadirAvail (esz : Nat) (c : TimingCore) : Nat :=
  (c.nadir_write_index + esz - c.nadir_read_index) % esz

/-- The write/read cursor dynamics shared by bufferPeak and bufferNadir,
abstracted over the pair (write, read) for the proofs below. -/
def ringStep (esz : Nat) (wr : Nat × Nat) : Nat × Nat :=
  let w := (wr.1 + 1) &&& (esz - 1)
  if w = wr.2 then (w, (wr.2 + 1) &&& (esz - 1)) else (w, wr.2)

/-! ### Claim C10: only valid, nonzero peaks and sub-255 nadirs are
buffered -/

/-- The observable state of the peak ring buffer: contents and the two
cursors. -/
def peakBufState (c : TimingCore) : (Nat → Extremum) × Nat × Nat :=
  (c.peak_buffer, c.peak_write_index, c.peak_read_index)

/-- The observable state of the nadir ring buffer. -/
def nadirBufState (c : TimingCore) : (Nat → Extremum) × Nat × Nat :=
  (c.nadir_buffer, c.nadir_write_index, c.nadir_read_index)

/-! ### Node-mode serial protocol (src/src/node_mode.cpp).
The Buffer struct writes are modelled as list appends (write8 / write16 /
write32 each store uint8 truncations), and the incoming byte collection
as the list of bytes received so far.  The header node_mode.h is not in
src; the NodeMode member fields (_settings, _lastPass, _nodeIndex) are
modelled from their uses in node_mode.cpp and the spec.  The 100-byte
iteration cap of handleSerialInput only batches processing (remaining
bytes stay queued on the serial line), so the byte stream is modelled
in order. -/

/-- TimingCore::setThreshold (timing_core.cpp lines 666-672); the
parameter is uint8 in the source. -/
def setThreshold (c : TimingCore) (threshold : Nat) : TimingCore :=
  { c with state := { c.state with threshold := threshold % 2 ^ 8 } }

/-- TimingCore::setActivated (timing_core.cpp lines 674-680). -/
def setActivated (c : TimingCore) (active : Bool) : TimingCore :=
  { c with state := { c.state with activated := active } }

/-- Buffer::calculateChecksum (node_mode.cpp lines 96-102): the uint8
accumulator adds each byte mod 256 (additive, not XOR); the final
& 0xFF is the identity on a uint8. -/
def calculateChecksum (data : List Nat) : Nat :=
  data.foldl (fun ck b => (ck + b) % 256) 0

/-- Buffer::write8: append one byte (uint8 store truncates). -/
def write8 (buf : List Nat) (v : Nat) : List Nat := buf ++ [v % 256]

/-- Buffer::write16: append the high then low byte. -/
def write16 (buf : List Nat) (v : Nat) : List Nat :=
  buf ++ [(v >>> 8) % 256, v % 256]

/-- Buffer::write32: append four bytes, most significant first. -/
def write32 (buf : List Nat) (v : Nat) : List Nat :=
  buf ++ [(v >>> 24) % 256, (v >>> 16) % 256, (v >>> 8) % 256, v % 256]

/-- Buffer::writeChecksum (node_mode.cpp lines 104-107): append the sum
of all bytes written so far. -/
def writeChecksum (buf : List Nat) : List Nat :=
  buf ++ [calculateChecksum buf]

/-- Buffer::read16 on a freshly received payload: big-endian pair into a
uint16. -/
def read16 (data : List Nat) : Nat :=
  ((data.getD 0 0 <<< 8) ||| data.getD 1 0) % 2 ^ 16

/-- Buffer::read8 on a freshly received payload. -/
def read8 (data : List Nat) : Nat := data.getD 0 0

/-- Message::getPayloadSize (node_mode.cpp lines 115-125). -/
def getPayloadSize (cmd : Nat) : Nat :=
  match cmd with
  | 0x51 => 2  -- WRITE_FREQUENCY
  | 0x71 => 1  -- WRITE_ENTER_AT_LEVEL
  | 0x72 => 1  -- WRITE_EXIT_AT_LEVEL
  | 0x75 => 2  -- SEND_STATUS_MESSAGE
  | 0x78 => 1  -- FORCE_END_CROSSING
  | 0x7A => 1  -- WRITE_CURNODE_INDEX
  | _ => 0

/-- The _lastPass record of NodeMode (declared in the missing
node_mode.h).  Modelled from the spec: its fields lap, timestamp and
rssiPeak are dictated by every use in node_mode.cpp. -/
structure LastPass where
  lap : Nat
  timestamp : Nat
  rssiPeak : Nat
  deriving Repr, DecidableEq

/-- The _settings record of NodeMode (declared in the missing
node_mode.h).  Modelled from the spec: vtxFreq, enterAtLevel,
exitAtLevel as used in node_mode.cpp. -/
structure NodeSettings where
  vtxFreq : Nat
  enterAtLevel : Nat
  exitAtLevel : Nat
  deriving Repr, DecidableEq

/-- The incoming-message parser state: Buffer.data with its fill index
(modelled as the list of collected bytes) plus the pending command and
expected size (0 when idle), as used by NodeMode::handleSerialInput. -/
structure ParserState where
  command : Nat
  size : Nat
  data : List Nat
  deriving Repr, DecidableEq

/-- The NodeMode instance state: the owned timing core plus the fields
of the missing node_mode.h used by node_mode.cpp, the global
settingChangedFlags, and the serial parser. -/
structure NodeMode where
  core : TimingCore
  settings : NodeSettings
  lastPass : LastPass
  flags : Nat
  parser : ParserState

/-- NodeMode state after NodeMode::begin on first initialization
(node_mode.cpp lines 137-162): defaults 5800 / 96 / 80 pushed into the
core, core activated. -/
def initNode : NodeMode where
  core := setActivated (setThreshold (setFrequency initCore 0 5800).1 96) true
  settings := { vtxFreq := 5800, enterAtLevel := 96, exitAtLevel := 80 }
  lastPass := { lap := 0, timestamp := 0, rssiPeak := 0 }
  flags := 0
  parser := { command := 0, size := 0, data := [] }

/-- Byte codes of the firmware version string ESP32_Lite_1.0.0
(node_mode.cpp line 423). -/
def fwVersionBytes : List Nat :=
  [69, 83, 80, 51, 50, 95, 76, 105, 116, 101, 95, 49, 46, 48, 46, 48]

/-- Byte codes of the processor type string ESP32-C3 (node_mode.cpp
line 456). -/
def fwProcTypeBytes : List Nat :=
  [69, 83, 80, 51, 50, 45, 67, 51]

/-- The length-prefixed string write loops of handleReadCommand
(node_mode.cpp lines 420-463): one byte of length (uint8-truncated)
followed by that many character bytes. -/
def writeStr (buf : List Nat) (sb : List Nat) : List Nat :=
  (write8 buf sb.length) ++ (sb.take (sb.length % 256)).map (fun b => b % 256)

/-- The response payload assembled by Message::handleReadCommand
(node_mode.cpp lines 312-468) for each read opcode, with the actFlag of
the switch (false on the default branch); now stands for millis(), and
builddate / buildtime for the compile-time strings.  The getState()
bounded-timeout fallback cannot fire in this sequential model. -/
def readResponsePayload (n : NodeMode) (now : Nat)
    (builddate buildtime : List Nat) (cmd : Nat) : List Nat × Bool :=
  match cmd with
  | 0x00 => (write8 [] 0x08, true)                           -- READ_ADDRESS
  | 0x03 => (write16 [] n.core.state.frequency_mhz, true)    -- READ_FREQUENCY
  | 0x0D =>                                                  -- READ_LAP_PASS_STATS
      let ms_since_lap := sub32 now n.lastPass.timestamp % 2 ^ 16
      (write16 (write8 (write8 (write8 (write16 (write8 [] n.lastPass.lap)
        ms_since_lap) n.core.state.current_rssi) n.core.state.peak_rssi)
        n.lastPass.rssiPeak) 1000, true)
  | 0x0E =>                                                  -- READ_LAP_EXTREMUMS
      (write16 (write16 (write8 (write8 (write8 (write8 [] 0) 30) 30) 0)
        0) 0, true)
  | 0x31 => (write8 [] n.core.state.threshold, true)         -- READ_ENTER_AT_LEVEL
  | 0x32 => (write8 [] n.core.state.threshold, true)         -- READ_EXIT_AT_LEVEL
  | 0x22 => (write16 [] ((0x25 <<< 8) + 35), true)           -- READ_REVISION_CODE
  | 0x23 => (write8 [] n.core.state.peak_rssi, true)         -- READ_NODE_RSSI_PEAK
  | 0x24 => (write8 [] 30, true)                             -- READ_NODE_RSSI_NADIR
  | 0x33 => (write32 [] now, true)                           -- READ_TIME_MILLIS
  | 0x11 => (write16 [] 0, true)                             -- READ_RHFEAT_FLAGS
  | 0x39 => (write8 [] 1, true)                              -- READ_MULTINODE_COUNT
  | 0x3A => (write8 [] 0, true)                              -- READ_CURNODE_INDEX
  | 0x3C => (write8 [] 0, true)                              -- READ_NODE_SLOTIDX
  | 0x3D => (writeStr [] fwVersionBytes, true)               -- READ_FW_VERSION
  | 0x3E => (writeStr [] builddate, true)                    -- READ_FW_BUILDDATE
  | 0x3F => (writeStr [] buildtime, true)                    -- READ_FW_BUILDTIME
  | 0x40 => (writeStr [] fwProcTypeBytes, true)              -- READ_FW_PROCTYPE
  | _ => ([], false)

/-- Message::handleReadCommand plus the response transmission of
handleSerialInput (node_mode.cpp lines 206-215 and 312-482): assemble
the payload, set the activity flags when the opcode was recognized,
append the checksum and emit the message when the payload is nonempty. -/
def handleReadCommand (n : NodeMode) (now : Nat)
    (builddate buildtime : List Nat) (cmd : Nat) :
    NodeMode × Option (List Nat) :=
  let pa := readResponsePayload n now builddate buildtime cmd
  let n1 := if pa.2 then { n with flags := n.flags ||| 0x03 } else n
  let n2 := { n1 with parser := { n1.parser with command := 0 } }
  (n2, if pa.1 = [] then none else some (writeChecksum pa.1))

/-- Message::handleWriteCommand (node_mode.cpp lines 238-310); now
stands for the millis() call inside setFrequency.  In the
WRITE_FREQUENCY case the source also copies getState() into a local and
zeroes the peak_rssi of the copy; the copy is discarded, so that line
has no effect and is not modelled. -/
def handleWriteCommand (n : NodeMode) (now cmd : Nat)
    (payload : List Nat) : NodeMode :=
  let na :=
    match cmd with
    | 0x51 =>
        let freq := read16 payload
        ({ n with
            settings := { n.settings with vtxFreq := freq },
            core := setActivated (setFrequency n.core now freq).1 true },
         true)
    | 0x71 =>
        let level := read8 payload
        ({ n with
            settings := { n.settings with enterAtLevel := level },
            core := setThreshold n.core level }, true)
    | 0x72 =>
        let level := read8 payload
        ({ n with
            settings := { n.settings with exitAtLevel := level },
            core := setThreshold n.core level }, true)
    | 0x78 => (n, true)
    | 0x75 => (n, true)
    | _ => (n, false)
  if na.2 then { na.1 with flags := na.1.flags ||| 0x03 } else na.1

/-- One iteration of the while loop of NodeMode::handleSerialInput
(node_mode.cpp lines 189-235) on the next received byte: start a write
command, answer a read command immediately, or collect payload bytes
and on completion verify the checksum over the payload, dispatching the
write only on a match and discarding the whole message otherwise. -/
def handleSerialByte (n : NodeMode) (now : Nat)
    (builddate buildtime : List Nat) (b : Nat) :
    NodeMode × Option (List Nat) :=
  let byte := b % 256
  if n.parser.size = 0 then
    if byte > 0x50 then
      let expectedSize := getPayloadSize byte
      if 0 < expectedSize then
        ({ n with parser := { command := byte, size := expectedSize + 1,
                              data := [] } }, none)
      else
        ({ n with parser := { n.parser with command := byte } }, none)
    else
      handleReadCommand n now builddate buildtime byte
  else
    let data := n.parser.data ++ [byte]
    if data.length = n.parser.size then
      let checksum := calculateChecksum data.dropLast
      let n1 := { n with parser := { command := 0, size := 0, data := [] } }
      if data.getD (n.parser.size - 1) 0 = checksum then
        (handleWriteCommand n1 now n.parser.command data.dropLast, none)
      else
        (n1, none)
    else
      ({ n with parser := { n.parser with data := data } }, none)

/-- The serial byte stream processed in order through
NodeMode::handleSerialInput, collecting every emitted response
message. -/
def processBytes (now : Nat) (builddate buildtime : List Nat) :
    NodeMode → List Nat → NodeMode × List (List Nat)
  | n, [] => (n, [])
  | n, b :: rest =>
      let step := handleSerialByte n now builddate buildtime b
      let next := processBytes now builddate buildtime step.1 rest
      (next.1, step.2.toList ++ next.2)

/-! ## Theorems -/

theorem sub32_eq_sub (a b : Nat) (hb : b ≤ a) (ha : a < 2 ^ 32) :
    sub32 a b = a - b := by
  unfold sub32
  have hb' : b < 2 ^ 32 := lt_of_le_of_lt hb ha
  rw [Nat.mod_eq_of_lt ha, Nat.mod_eq_of_lt hb']
  rcases Nat.eq_zero_or_pos b with h0 | h0
  · subst h0; simpa using Nat.mod_eq_of_lt ha
  · have h1 : a + (2 ^ 32 - b) = (a - b) + 2 ^ 32 := by omega
    rw [h1, Nat.add_mod_right, Nat.mod_eq_of_lt (by omega)]

/-! ### Claim C1: register formula of setFrequency -/

/-- C1: for every freq_mhz in [5645, 5945], setFrequency transmits the
register value tf = (freq_mhz - 479) / 2 (integer division), N = tf / 32,
A = tf mod 32, reg = (N <<< 7) + A, and sets frequency_mhz to the
argument; the embedding is a function, so the result is deterministic. -/
theorem C1_setFrequency_register_formula (c : TimingCore) (now freq_mhz : Nat)
    (h1 : MIN_FREQ ≤ freq_mhz) (h2 : freq_mhz ≤ MAX_FREQ) :
    (setFrequency c now freq_mhz).2 =
      some ((((freq_mhz - 479) / 2 / 32) <<< 7) + (freq_mhz - 479) / 2 % 32) ∧
    (setFrequency c now freq_mhz).1.state.frequency_mhz = freq_mhz := by
  have hr : ¬(freq_mhz < MIN_FREQ ∨ freq_mhz > MAX_FREQ) := by omega
  have hlt : (((freq_mhz - 479) / 2 / 32) <<< 7) + (freq_mhz - 479) / 2 % 32
      < 2 ^ 16 := by
    rw [Nat.shiftLeft_eq]
    have h3 : (freq_mhz - 479) / 2 / 32 ≤ 85 := by
      have : freq_mhz - 479 ≤ 5466 := by
        simp only [MAX_FREQ] at h2; omega
      omega
    have h4 : (freq_mhz - 479) / 2 % 32 < 32 := Nat.mod_lt _ (by norm_num)
    calc (freq_mhz - 479) / 2 / 32 * 2 ^ 7 + (freq_mhz - 479) / 2 % 32
        ≤ 85 * 2 ^ 7 + 31 := by omega
      _ < 2 ^ 16 := by norm_num
  constructor
  · simp only [setFrequency, setRX5808Frequency, hr, if_false]
    exact congrArg some (Nat.mod_eq_of_lt hlt)
  · simp [setFrequency, setRX5808Frequency, hr]

/-- Witness for C1 at freq_mhz = 5800: the transmitted register value is
0x2984 (tf = 2660, N = 83, A = 4) and the state frequency becomes 5800. -/
theorem C1_setFrequency_register_formula_witness :
    MIN_FREQ ≤ 5800 ∧ 5800 ≤ MAX_FREQ ∧
    ((setFrequency initCore 0 5800).2 = some 0x2984 ∧
     (setFrequency initCore 0 5800).1.state.frequency_mhz = 5800) :=
  ⟨by decide, by decide,
   by
     have h := C1_setFrequency_register_formula initCore 0 5800
       (by decide) (by decide)
     simpa using h⟩

/-! ### Claim C6: out-of-range setFrequency is a no-op -/

/-- C6: for every freq_mhz outside [5645, 5945], setFrequency returns the
engine state unchanged (every field of TimingState and of the whole
TimingCore record) and transmits nothing; the function has no error
output, so no error reaches the caller. -/
theorem C6_setFrequency_out_of_range_noop (c : TimingCore)
    (now freq_mhz : Nat) (h : freq_mhz < MIN_FREQ ∨ freq_mhz > MAX_FREQ) :
    setFrequency c now freq_mhz = (c, none) := by
  simp [setFrequency, setRX5808Frequency, h]

/-- Witness for C6 at freq_mhz = 5000 from the constructed core: the
call returns the state unchanged and transmits nothing. -/
theorem C6_setFrequency_out_of_range_noop_witness :
    (5000 < MIN_FREQ ∨ 5000 > MAX_FREQ) ∧
    setFrequency initCore 7 5000 = (initCore, none) :=
  ⟨Or.inl (by decide),
   C6_setFrequency_out_of_range_noop initCore 7 5000 (Or.inl (by decide))⟩

/-! ### Claim C5: default threshold -/

/-- C5 counterexample: on construction the crossing threshold is 100
(CROSSING_THRESHOLD from config.h), which is not the mid-scale value of
the 8-bit range (neither 127 nor 128), so the claim that the default is
mid-scale fails on the code. -/
theorem C5_default_threshold_counterexample :
    initCore.state.threshold = 100 ∧
    initCore.state.threshold ≠ 127 ∧ initCore.state.threshold ≠ 128 := by
  refine ⟨rfl, by decide, by decide⟩

/-- C5 amended: on construction, before any setThreshold call, the
crossing threshold is the configured default CROSSING_THRESHOLD = 100. -/
theorem C5_threshold_default_value :
    initCore.state.threshold = CROSSING_THRESHOLD ∧
    CROSSING_THRESHOLD = 100 :=
  ⟨rfl, rfl⟩

/-- C2 counterexample: with the buffer full of 99 unread laps, recording
one more lap makes the write index collide with the read index, so
hasNewLap reports false and the number of drainable laps drops from 99
to 0: far from only the oldest unread lap being dropped, every unread
lap becomes undrainable. -/
theorem C2_lap_overflow_counterexample :
    getAvailableLaps lapFloodState = 99 ∧
    hasNewLap (recordLap lapFloodState 500000 60) = false ∧
    getAvailableLaps (recordLap lapFloodState 500000 60) = 0 := by
  refine ⟨by decide, by decide, by decide⟩

/-- C2 amended: when a new lap is recorded while the lap ring buffer is
full of unread laps, the write index wraps onto the read index and the
buffer then reports empty: all unread laps, not just the oldest, become
undrainable via hasNewLap / getNextLap.  recordLap is total and returns
no error value, so the producer still receives no error. -/
theorem C2_lap_overflow_loses_all (c : TimingCore) (t p : Nat)
    (_hw : c.lap_write_index < MAX_LAPS_STORED)
    (hr : c.lap_read_index < MAX_LAPS_STORED)
    (hfull : getAvailableLaps c = MAX_LAPS_STORED - 1) :
    hasNewLap (recordLap c t p) = false ∧
    getAvailableLaps (recordLap c t p) = 0 := by
  simp only [getAvailableLaps, hasNewLap, recordLap, MAX_LAPS_STORED] at *
  constructor
  · rw [bne_eq_false_iff_eq]
    omega
  · omega

/-- Witness for C2 amended, at the concrete state holding 99 unread
laps. -/
theorem C2_lap_overflow_loses_all_witness :
    (lapFloodState.lap_write_index < MAX_LAPS_STORED ∧
     lapFloodState.lap_read_index < MAX_LAPS_STORED ∧
     getAvailableLaps lapFloodState = MAX_LAPS_STORED - 1) ∧
    (hasNewLap (recordLap lapFloodState 500000 60) = false ∧
     getAvailableLaps (recordLap lapFloodState 500000 60) = 0) :=
  ⟨⟨by decide, by decide, by decide⟩,
   C2_lap_overflow_loses_all lapFloodState 500000 60
     (by decide) (by decide) (by decide)⟩

/-! ### Claim C3: the 100 ms noise-rejection floor -/

/-- C3: when a crossing ends (crossing is active and the filtered RSSI
falls below the threshold), handleCrossing leaves the crossing, and a
lap record is appended exactly when the crossing duration now -
crossing_start exceeds 100 ms: the first implication gives the appended
record, the second shows that a duration of at most 100 ms changes
nothing except crossing_active (discarded silently, no error), which
together give the if-and-only-if of the claim because an appended lap
always moves the write index. -/
theorem C3_crossing_min_duration (c : TimingCore) (now filtered : Nat)
    (hact : c.state.crossing_active = true)
    (hbelow : filtered < c.state.threshold) :
    (handleCrossing c now filtered).state.crossing_active = false ∧
    (sub32 now c.state.crossing_start > 100 →
      (handleCrossing c now filtered).lap_write_index =
        (c.lap_write_index + 1) % MAX_LAPS_STORED ∧
      (handleCrossing c now filtered).lap_buffer c.lap_write_index =
        { timestamp_ms := now % 2 ^ 32,
          lap_time_ms :=
            (if c.state.last_lap_time > 0 then sub32 now c.state.last_lap_time
             else 0) % 2 ^ 16,
          rssi_peak := c.state.peak_rssi % 2 ^ 8,
          pilot_id := 0, valid := true } ∧
      (handleCrossing c now filtered).state.lap_count =
        (c.state.lap_count + 1) % 2 ^ 16) ∧
    (sub32 now c.state.crossing_start ≤ 100 →
      handleCrossing c now filtered =
        { c with state := { c.state with crossing_active := false } }) := by
  have hdet : detectCrossing c filtered = false := by
    simp [detectCrossing, Nat.not_le.mpr hbelow]
  by_cases hdur : sub32 now c.state.crossing_start > 100
  · refine ⟨?_, fun _ => ⟨?_, ?_, ?_⟩, fun h => absurd hdur (by omega)⟩ <;>
      simp [handleCrossing, hdet, hact, hdur, recordLap, Function.update_same]
  · refine ⟨?_, fun h => absurd h hdur, fun _ => ?_⟩ <;>
      simp [handleCrossing, hdet, hact, hdur]

/-- Witness for C3: a crossing of exactly 101 ms (start 0, end 101 with
RSSI 50 below the default threshold 100) appends a lap, and a crossing
of exactly 100 ms changes nothing but the crossing flag. -/
theorem C3_crossing_min_duration_witness :
    (crossingCore.state.crossing_active = true ∧
     50 < crossingCore.state.threshold ∧
     sub32 101 crossingCore.state.crossing_start > 100 ∧
     sub32 100 crossingCore.state.crossing_start ≤ 100) ∧
    (handleCrossing crossingCore 101 50).lap_write_index = 1 ∧
    handleCrossing crossingCore 100 50 =
      { crossingCore with state := { crossingCore.state with
          crossing_active := false } } :=
  ⟨⟨by decide, by decide, by decide, by decide⟩,
   by
     have h := (C3_crossing_min_duration crossingCore 101 50
       (by decide) (by decide)).2.1 (by decide)
     simpa using h.1,
   (C3_crossing_min_duration crossingCore 100 50
       (by decide) (by decide)).2.2 (by decide)⟩

/-! ### Claim C4: lap_time_ms of first and subsequent laps -/

/-- C4 counterexample: a lap recorded 65536 ms after the previous one
(previous lap at t1 = 1, new lap at t2 = 65537) is stored with
lap_time_ms = 0, not t2 - t1 = 65536: the uint16 field truncates the
difference mod 2^16, so the claim as stated fails. -/
theorem C4_lap_time_counterexample :
    (recordLap initCore 1 10).state.last_lap_time = 1 ∧
    ((recordLap (recordLap initCore 1 10) 65537 20).lap_buffer 1).lap_time_ms
      = 0 ∧
    (0 : Nat) ≠ 65537 - 1 := by
  refine ⟨by decide, by decide, by decide⟩

/-- C4 amended: the first lap of a session (last_lap_time still 0) is
stored with lap_time_ms = 0; a subsequent lap recorded at time t2 after
a previous lap at time t1 (with 0 < t1 and t1 le t2 < 2^32, as for
millis() timestamps) is stored with lap_time_ms = (t2 - t1) mod 2^16,
the uint16 truncation of the elapsed time. -/
theorem C4_lap_time_truncated (c : TimingCore) (t2 p : Nat) :
    (c.state.last_lap_time = 0 →
      ((recordLap c t2 p).lap_buffer c.lap_write_index).lap_time_ms = 0) ∧
    (∀ t1, c.state.last_lap_time = t1 → 0 < t1 → t1 ≤ t2 → t2 < 2 ^ 32 →
      ((recordLap c t2 p).lap_buffer c.lap_write_index).lap_time_ms =
        (t2 - t1) % 2 ^ 16) := by
  constructor
  · intro h0
    simp [recordLap, Function.update_same, h0]
  · intro t1 h1 hpos hle hlt
    simp only [recordLap, Function.update_same, h1]
    rw [if_pos hpos, sub32_eq_sub t2 t1 hle hlt]

/-- Witness for C4 amended: a first lap at time 777 is stored with
lap_time_ms = 0, and after a lap at t1 = 1000 a lap at t2 = 5000 is
stored with lap_time_ms = 4000. -/
theorem C4_lap_time_truncated_witness :
    (initCore.state.last_lap_time = 0 ∧
     (recordLap initCore 1000 10).state.last_lap_time = 1000 ∧
     (0 : Nat) < 1000 ∧ 1000 ≤ 5000 ∧ 5000 < 2 ^ 32) ∧
    ((recordLap initCore 777 5).lap_buffer 0).lap_time_ms = 0 ∧
    ((recordLap (recordLap initCore 1000 10) 5000 20).lap_buffer 1).lap_time_ms
      = 4000 :=
  ⟨⟨by decide, by decide, by decide, by decide, by decide⟩,
   by
     have h := (C4_lap_time_truncated initCore 777 5).1 (by decide)
     simpa using h,
   by
     have h := (C4_lap_time_truncated (recordLap initCore 1000 10) 5000 20).2
       1000 (by decide) (by decide) (by decide) (by decide)
     simpa using h⟩

theorem sumTo_congr (f g : Nat → Nat) (k : Nat)
    (h : ∀ i, i < k → f i = g i) : sumTo f k = sumTo g k := by
  induction k with
  | zero => rfl
  | succ k ih =>
      simp only [sumTo]
      rw [ih (fun i hi => h i (by omega)), h k (by omega)]

theorem sumTo_update (f : Nat → Nat) (s a k : Nat) (hs : s < k) :
    sumTo (Function.update f s a) k + f s = sumTo f k + a := by
  induction k with
  | zero => omega
  | succ k ih =>
      simp only [sumTo]
      rcases Nat.lt_or_ge s k with h | h
      · rw [Function.update_noteq (by omega)]
        omega
      · have hsk : s = k := by omega
        subst hsk
        rw [Function.update_same,
          sumTo_congr (Function.update f s a) f s
            (fun i hi => Function.update_noteq (by omega) _ _)]
        omega

theorem sumTo_getD (ys : List Nat) :
    sumTo (fun j => ys.getD j 0) ys.length = ys.sum := by
  induction ys using List.reverseRecOn with
  | nil => rfl
  | append_singleton l a ih =>
      simp only [List.length_append, List.length_singleton, sumTo]
      rw [sumTo_congr _ (fun j => l.getD j 0) l.length
          (fun i hi => List.getD_append _ _ _ _ hi)]
      have hlast : (l ++ [a]).getD l.length 0 = a := by
        simp [List.getD_eq_getElem?_getD, List.getElem?_concat_length]
      rw [ih, hlast, List.sum_append]
      simp

theorem drop_sum_getD (l : List Nat) (m : Nat) (hm : m < l.length) :
    (l.drop m).sum = l.getD m 0 + (l.drop (m + 1)).sum := by
  rw [List.drop_eq_getElem_cons hm, List.sum_cons,
    List.getD_eq_getElem l 0 hm]

/-- State invariant of the filter after feeding xs from the constructed
core: the write index is the sample count mod the window size, the
filled flag says whether a full window has been written, and each of
the last min (length, window) samples sits in its slot index mod 10. -/
theorem feedRSSI_inv (xs : List Nat) :
    (feedRSSI initCore xs).sample_index = xs.length % RSSI_SAMPLES ∧
    (feedRSSI initCore xs).samples_filled = decide (RSSI_SAMPLES ≤ xs.length) ∧
    (∀ j, j < xs.length → xs.length ≤ j + RSSI_SAMPLES →
      (feedRSSI initCore xs).rssi_samples (j % RSSI_SAMPLES) =
        xs.getD j 0) := by
  induction xs using List.reverseRecOn with
  | nil => refine ⟨rfl, rfl, fun j hj _ => by simp at hj⟩
  | append_singleton l a ih =>
      obtain ⟨ih1, ih2, ih3⟩ := ih
      have hsplit : feedRSSI initCore (l ++ [a]) =
          (filterRSSI (feedRSSI initCore l) a).1 := by
        simp [feedRSSI, List.foldl_append]
      set n := l.length with hn
      have hlen : (l ++ [a]).length = n + 1 := by simp [hn]
      refine ⟨?_, ?_, ?_⟩
      · rw [hsplit]
        simp only [filterRSSI, ih1, hlen, RSSI_SAMPLES]
        omega
      · rw [hsplit]
        simp only [filterRSSI, ih1, ih2, hlen, RSSI_SAMPLES]
        rcases Nat.lt_or_ge n 10 with h | h
        · rcases Nat.lt_or_ge (n + 1) 10 with h1 | h1
          · have e1 : ((10 : Nat) ≤ n) = False := by simp; omega
            have e2 : ((10 : Nat) ≤ n + 1) = False := by simp; omega
            have e3 : (n % 10 + 1) % 10 = n + 1 := by omega
            simp [e1, e2, e3, Nat.ne_of_gt (show 0 < n + 1 by omega)]
          · have hn9 : n = 9 := by omega
            rw [hn9]
            decide
        · have e1 : ((10 : Nat) ≤ n) = True := by simp; omega
          have e2 : ((10 : Nat) ≤ n + 1) = True := by simp; omega
          simp [e1, e2]
      · intro j hj hge
        rw [hsplit]
        simp only [filterRSSI, ih1, hlen] at *
        rcases Nat.lt_or_ge j n with hjn | hjn
        · have hne : j % RSSI_SAMPLES ≠ n % RSSI_SAMPLES := by
            simp only [RSSI_SAMPLES] at *
            omega
          rw [Function.update_noteq hne, ih3 j hjn (by omega),
            List.getD_append _ _ _ _ hjn]
        · have hjeq : j = n := by omega
          subst hjeq
          rw [Function.update_same]
          simp [List.getD_eq_getElem?_getD, List.getElem?_concat_length, hn]

/-- Once a full window has been written, the sum over the 10 slots is
the sum of the last 10 samples fed. -/
theorem feedRSSI_window_sum (xs : List Nat) (hfull : RSSI_SAMPLES ≤ xs.length) :
    sumTo (feedRSSI initCore xs).rssi_samples RSSI_SAMPLES =
      (xs.drop (xs.length - RSSI_SAMPLES)).sum := by
  induction xs using List.reverseRecOn with
  | nil => simp [RSSI_SAMPLES] at hfull
  | append_singleton l a ih =>
      have hsplit : feedRSSI initCore (l ++ [a]) =
          (filterRSSI (feedRSSI initCore l) a).1 := by
        simp [feedRSSI, List.foldl_append]
      obtain ⟨ih1, _, ih3⟩ := feedRSSI_inv l
      obtain ⟨jh1, _, jh3⟩ := feedRSSI_inv (l ++ [a])
      set n := l.length with hn
      have hlen : (l ++ [a]).length = n + 1 := by simp [hn]
      rw [hlen] at hfull
      simp only [RSSI_SAMPLES] at *
      rcases Nat.lt_or_ge n 10 with hlt | hge
      · -- the window fills exactly at this push: all ten slots are the
        -- ten samples of l ++ [a], in slot order
        have hn9 : n = 9 := by omega
        rw [sumTo_congr _ (fun j => (l ++ [a]).getD j 0) 10
            (fun i hi => by
              have := jh3 i (by omega) (by omega)
              rwa [Nat.mod_eq_of_lt hi] at this)]
        have h10 : (l ++ [a]).length = 10 := by omega
        have := sumTo_getD (l ++ [a])
        rw [h10] at this
        rw [this, hlen, hn9]
        simp
      · -- the push overwrites the slot holding the sample dropping out
        -- of the window
        have hold : (feedRSSI initCore l).rssi_samples ((n - 10) % 10) =
            l.getD (n - 10) 0 := ih3 (n - 10) (by omega) (by omega)
        have hmod : (n - 10) % 10 = n % 10 := by omega
        have hupd := sumTo_update (feedRSSI initCore l).rssi_samples
          (n % 10) a 10 (by omega)
        have hsam : (feedRSSI initCore (l ++ [a])).rssi_samples =
            Function.update (feedRSSI initCore l).rssi_samples
              ((feedRSSI initCore l).sample_index) a := by
          rw [hsplit]; rfl
        rw [hsam, ih1]
        have hdrop1 : (l.drop (n - 10)).sum =
            l.getD (n - 10) 0 + (l.drop (n - 9)).sum := by
          have := drop_sum_getD l (n - 10) (by omega)
          rwa [show n - 10 + 1 = n - 9 by omega] at this
        have hdrop2 : ((l ++ [a]).drop (n + 1 - 10)).sum =
            (l.drop (n - 9)).sum + a := by
          rw [show n + 1 - 10 = n - 9 by omega,
            List.drop_append_of_le_length (by omega)]
          simp
        have hihl := ih (by omega)
        simp only [RSSI_SAMPLES] at hihl
        rw [hlen, hdrop2]
        rw [hmod] at hold
        omega

/-! ### Claim C7: filter output is the moving average -/

/-- C7: after any samples xs, the filter output for the next sample a is
the integer arithmetic mean of the samples written so far, restricted to
the last RSSI_SAMPLES = 10 of them once a full window has been written;
in particular (second conjunct) for a constant run of value a spanning a
full window the output is exactly a. -/
theorem C7_filter_moving_average (xs : List Nat) (a : Nat) :
    (filterRSSI (feedRSSI initCore xs) a).2 =
      ((xs ++ [a]).drop ((xs ++ [a]).length -
          min (xs ++ [a]).length RSSI_SAMPLES)).sum /
        min (xs ++ [a]).length RSSI_SAMPLES ∧
    (filterRSSI (feedRSSI initCore (List.replicate (RSSI_SAMPLES - 1) a))
        a).2 = a := by
  have main : ∀ ys b,
      (filterRSSI (feedRSSI initCore ys) b).2 =
        ((ys ++ [b]).drop ((ys ++ [b]).length -
            min (ys ++ [b]).length RSSI_SAMPLES)).sum /
          min (ys ++ [b]).length RSSI_SAMPLES := by
    intro ys b
    obtain ⟨ih1, ih2, _⟩ := feedRSSI_inv ys
    obtain ⟨_, _, jh3⟩ := feedRSSI_inv (ys ++ [b])
    have hsplit : feedRSSI initCore (ys ++ [b]) =
        (filterRSSI (feedRSSI initCore ys) b).1 := by
      simp [feedRSSI, List.foldl_append]
    set n := ys.length with hn
    have hlen : (ys ++ [b]).length = n + 1 := by simp [hn]
    have hsam : (filterRSSI (feedRSSI initCore ys) b).1.rssi_samples =
        Function.update (feedRSSI initCore ys).rssi_samples
          ((feedRSSI initCore ys).sample_index) b := rfl
    rcases Nat.lt_or_ge (n + 1) RSSI_SAMPLES with hlt | hge
    · -- the window has not yet filled: mean over all n + 1 samples
      simp only [RSSI_SAMPLES] at *
      have e1 : ((10 : Nat) ≤ n) = False := by simp; omega
      have e2 : (n % 10 + 1) % 10 = n + 1 := by omega
      have hcnt : (filterRSSI (feedRSSI initCore ys) b).2 =
          sumTo (filterRSSI (feedRSSI initCore ys) b).1.rssi_samples
            (n + 1) / (n + 1) := by
        simp [filterRSSI, RSSI_SAMPLES, ih1, ih2, e1, e2,
          Nat.ne_of_gt (show 0 < n + 1 by omega)]
      have hsum : sumTo (filterRSSI (feedRSSI initCore ys) b).1.rssi_samples
          (n + 1) = (ys ++ [b]).sum := by
        rw [← hsplit]
        rw [sumTo_congr _ (fun j => (ys ++ [b]).getD j 0) (n + 1)
            (fun i hi => by
              have := jh3 i (by omega) (by omega)
              rwa [Nat.mod_eq_of_lt (by omega)] at this)]
        have := sumTo_getD (ys ++ [b])
        rwa [hlen] at this
      rw [hcnt, hsum, hlen, min_eq_left (by omega)]
      simp
    · -- full window: mean over the last 10 samples
      simp only [RSSI_SAMPLES] at *
      have hcnt : (filterRSSI (feedRSSI initCore ys) b).2 =
          sumTo (filterRSSI (feedRSSI initCore ys) b).1.rssi_samples
            10 / 10 := by
        rcases Nat.lt_or_ge n 10 with h | h
        · have hn9 : n = 9 := by omega
          rw [hn9] at ih1 ih2
          simp [filterRSSI, RSSI_SAMPLES, ih1, ih2]
        · have e1 : ((10 : Nat) ≤ n) = True := by simp; omega
          simp [filterRSSI, RSSI_SAMPLES, ih1, ih2, e1]
      have hsum := feedRSSI_window_sum (ys ++ [b])
        (by simp only [RSSI_SAMPLES]; omega)
      rw [hsplit] at hsum
      simp only [RSSI_SAMPLES, hlen] at hsum
      rw [hcnt, hsum, hlen, min_eq_right (by omega)]
  refine ⟨main xs a, ?_⟩
  rw [main (List.replicate (RSSI_SAMPLES - 1) a) a]
  have hconc : List.replicate (RSSI_SAMPLES - 1) a ++ [a] =
      List.replicate RSSI_SAMPLES a := by
    show List.replicate 9 a ++ [a] = List.replicate (9 + 1) a
    exact (List.replicate_succ' 9 a).symm
  rw [hconc]
  simp [RSSI_SAMPLES, List.sum_replicate]
  omega

theorem bufferPeak_indices (esz : Nat) (c : TimingCore) (e : Extremum) :
    ((bufferPeak esz c e).peak_write_index,
     (bufferPeak esz c e).peak_read_index) =
      ringStep esz (c.peak_write_index, c.peak_read_index) := by
  unfold bufferPeak ringStep
  dsimp only
  split <;> rfl

theorem bufferNadir_indices (esz : Nat) (c : TimingCore) (e : Extremum) :
    ((bufferNadir esz c e).nadir_write_index,
     (bufferNadir esz c e).nadir_read_index) =
      ringStep esz (c.nadir_write_index, c.nadir_read_index) := by
  unfold bufferNadir ringStep
  dsimp only
  split <;> rfl

theorem succ_mod_of_two_le (S m : Nat) (hS : 2 ≤ S) :
    (m % S + 1) % S = (m + 1) % S := by
  conv_rhs => rw [Nat.add_mod]
  rw [Nat.mod_eq_of_lt (show 1 < S by omega)]

/-- Closed form of the cursor pair after m pushes into an empty
power-of-two ring: the write cursor is m mod size, and once the ring has
wrapped the read cursor trails it by one slot. -/
theorem ringStep_iter (k : Nat) (hk : 1 ≤ k) (m : Nat) :
    (ringStep (2 ^ k))^[m] (0, 0) =
      (m % 2 ^ k,
       if m < 2 ^ k then 0 else (m % 2 ^ k + 1) % 2 ^ k) := by
  have hS : 2 ≤ 2 ^ k := by
    calc 2 = 2 ^ 1 := rfl
    _ ≤ 2 ^ k := Nat.pow_le_pow_right (by omega) hk
  induction m with
  | zero =>
      have h0 : (0 : Nat) < 2 ^ k := by omega
      simp [h0]
  | succ m ih =>
      rw [Function.iterate_succ_apply', ih]
      rcases Nat.lt_or_ge (m + 1) (2 ^ k) with h1 | h1
      · -- no wrap yet: the write cursor cannot hit the read cursor at 0
        have hm : m < 2 ^ k := by omega
        have hw : (m % 2 ^ k + 1) &&& (2 ^ k - 1) = m + 1 := by
          rw [Nat.and_pow_two_sub_one_eq_mod, succ_mod_of_two_le _ _ hS,
            Nat.mod_eq_of_lt h1]
        rw [if_pos hm]
        unfold ringStep
        dsimp only
        rw [hw, if_neg (by omega), if_pos h1, Nat.mod_eq_of_lt h1]
      · rcases Nat.lt_or_ge m (2 ^ k) with hm | hm
        · -- the push that first fills the ring: write wraps to 0 = read
          have hmeq : m + 1 = 2 ^ k := by omega
          have hw : (m % 2 ^ k + 1) &&& (2 ^ k - 1) = 0 := by
            rw [Nat.and_pow_two_sub_one_eq_mod, succ_mod_of_two_le _ _ hS,
              hmeq, Nat.mod_self]
          have hr : (0 + 1) &&& (2 ^ k - 1) = 1 := by
            rw [Nat.and_pow_two_sub_one_eq_mod,
              Nat.mod_eq_of_lt (show 1 < 2 ^ k by omega)]
          have hz : (m + 1) % 2 ^ k = 0 := by rw [hmeq, Nat.mod_self]
          rw [if_pos hm]
          unfold ringStep
          dsimp only
          rw [hw, if_pos rfl, hr, if_neg (by omega), hz,
            Nat.zero_add, Nat.mod_eq_of_lt (show 1 < 2 ^ k by omega)]
        · -- steady state: every push collides and drags the read cursor
          have hr2 : (m % 2 ^ k + 1) % 2 ^ k = (m + 1) % 2 ^ k :=
            succ_mod_of_two_le _ _ hS
          rw [if_neg (by omega)]
          unfold ringStep
          dsimp only
          rw [Nat.and_pow_two_sub_one_eq_mod, hr2, if_pos rfl,
            Nat.and_pow_two_sub_one_eq_mod, if_neg (by omega)]

theorem pushAll_peak_indices (esz : Nat) (es : List Extremum) :
    ((es.foldl (bufferPeak esz) initCore).peak_write_index,
     (es.foldl (bufferPeak esz) initCore).peak_read_index) =
      (ringStep esz)^[es.length] (0, 0) := by
  induction es using List.reverseRecOn with
  | nil => rfl
  | append_singleton l e ih =>
      rw [List.foldl_append, List.foldl_cons, List.foldl_nil,
        List.length_append, List.length_singleton,
        Function.iterate_succ_apply', ← ih, bufferPeak_indices]

theorem pushAll_nadir_indices (esz : Nat) (es : List Extremum) :
    ((es.foldl (bufferNadir esz) initCore).nadir_write_index,
     (es.foldl (bufferNadir esz) initCore).nadir_read_index) =
      (ringStep esz)^[es.length] (0, 0) := by
  induction es using List.reverseRecOn with
  | nil => rfl
  | append_singleton l e ih =>
      rw [List.foldl_append, List.foldl_cons, List.foldl_nil,
        List.length_append, List.length_singleton,
        Function.iterate_succ_apply', ← ih, bufferNadir_indices]

/-- Drain count of a power-of-two ring from the closed-form cursor pair. -/
theorem ringCount_closed (k : Nat) (hk : 1 ≤ k) (m : Nat) :
    (m % 2 ^ k + 2 ^ k -
        (if m < 2 ^ k then 0 else (m % 2 ^ k + 1) % 2 ^ k)) % 2 ^ k =
      min m (2 ^ k - 1) := by
  have hS : 2 ≤ 2 ^ k := by
    calc 2 = 2 ^ 1 := rfl
    _ ≤ 2 ^ k := Nat.pow_le_pow_right (by omega) hk
  rcases Nat.lt_or_ge m (2 ^ k) with hm | hm
  · rw [if_pos hm, Nat.sub_zero, Nat.mod_eq_of_lt hm, Nat.add_mod_right,
      Nat.mod_eq_of_lt hm]
    omega
  · rw [if_neg (by omega)]
    have hlt : m % 2 ^ k < 2 ^ k := Nat.mod_lt _ (by omega)
    rcases Nat.lt_or_ge (m % 2 ^ k + 1) (2 ^ k) with hc | hc
    · rw [Nat.mod_eq_of_lt hc,
        show m % 2 ^ k + 2 ^ k - (m % 2 ^ k + 1) = 2 ^ k - 1 by omega,
        Nat.mod_eq_of_lt (by omega)]
      omega
    · rw [show m % 2 ^ k + 1 = 2 ^ k by omega, Nat.mod_self, Nat.sub_zero,
        Nat.add_mod_right, Nat.mod_eq_of_lt hlt]
      omega

/-- A ring is full (drain count = size - 1) exactly when the next write
cursor position coincides with the read cursor. -/
theorem ring_full_iff (S w r : Nat) (hw : w < S) (hr : r < S) :
    (w + S - r) % S = S - 1 ↔ (w + 1) % S = r := by
  rcases Nat.lt_or_ge w r with h | h
  · have hd : w + S - r < S := by omega
    rw [Nat.mod_eq_of_lt hd]
    rcases Nat.lt_or_ge (w + 1) S with hww | hww
    · rw [Nat.mod_eq_of_lt hww]
      omega
    · rw [show w + 1 = S by omega, Nat.mod_self]
      omega
  · rw [show w + S - r = S + (w - r) by omega, Nat.add_mod_left,
      Nat.mod_eq_of_lt (by omega)]
    rcases Nat.lt_or_ge (w + 1) S with hww | hww
    · rw [Nat.mod_eq_of_lt hww]
      omega
    · rw [show w + 1 = S by omega, Nat.mod_self]
      omega

/-- Pushing into a full peak buffer advances the read cursor by one slot
(dropping exactly the oldest unread entry), stores the new entry, and
keeps the drain count at size - 1. -/
theorem bufferPeak_full (k : Nat) (hk : 1 ≤ k) (c : TimingCore)
    (e : Extremum) (hw : c.peak_write_index < 2 ^ k)
    (hr : c.peak_read_index < 2 ^ k)
    (hfull : peakAvail (2 ^ k) c = 2 ^ k - 1) :
    (bufferPeak (2 ^ k) c e).peak_read_index =
      (c.peak_read_index + 1) % 2 ^ k ∧
    (bufferPeak (2 ^ k) c e).peak_buffer c.peak_write_index = e ∧
    peakAvail (2 ^ k) (bufferPeak (2 ^ k) c e) = 2 ^ k - 1 := by
  have hS : 2 ≤ 2 ^ k := by
    calc 2 = 2 ^ 1 := rfl
    _ ≤ 2 ^ k := Nat.pow_le_pow_right (by omega) hk
  have hcol : (c.peak_write_index + 1) % 2 ^ k = c.peak_read_index :=
    (ring_full_iff (2 ^ k) _ _ hw hr).mp hfull
  have hbp : bufferPeak (2 ^ k) c e =
      { c with
        peak_buffer := Function.update c.peak_buffer c.peak_write_index e,
        peak_write_index := c.peak_read_index,
        peak_read_index := (c.peak_read_index + 1) % 2 ^ k } := by
    unfold bufferPeak
    dsimp only
    rw [Nat.and_pow_two_sub_one_eq_mod, hcol, if_pos rfl,
      Nat.and_pow_two_sub_one_eq_mod]
  refine ⟨by rw [hbp], by rw [hbp]; exact Function.update_same _ _ _, ?_⟩
  rw [hbp]
  unfold peakAvail
  dsimp only
  rcases Nat.lt_or_ge (c.peak_read_index + 1) (2 ^ k) with hc | hc
  · rw [Nat.mod_eq_of_lt hc,
      show c.peak_read_index + 2 ^ k - (c.peak_read_index + 1) =
        2 ^ k - 1 by omega, Nat.mod_eq_of_lt (by omega)]
  · rw [show c.peak_read_index + 1 = 2 ^ k by omega, Nat.mod_self,
      Nat.sub_zero, Nat.add_mod_right, Nat.mod_eq_of_lt hr]
    omega

/-- Pushing into a full nadir buffer: same behavior as the peak buffer. -/
theorem bufferNadir_full (k : Nat) (hk : 1 ≤ k) (c : TimingCore)
    (e : Extremum) (hw : c.nadir_write_index < 2 ^ k)
    (hr : c.nadir_read_index < 2 ^ k)
    (hfull : nadirAvail (2 ^ k) c = 2 ^ k - 1) :
    (bufferNadir (2 ^ k) c e).nadir_read_index =
      (c.nadir_read_index + 1) % 2 ^ k ∧
    (bufferNadir (2 ^ k) c e).nadir_buffer c.nadir_write_index = e ∧
    nadirAvail (2 ^ k) (bufferNadir (2 ^ k) c e) = 2 ^ k - 1 := by
  have hS : 2 ≤ 2 ^ k := by
    calc 2 = 2 ^ 1 := rfl
    _ ≤ 2 ^ k := Nat.pow_le_pow_right (by omega) hk
  have hcol : (c.nadir_write_index + 1) % 2 ^ k = c.nadir_read_index :=
    (ring_full_iff (2 ^ k) _ _ hw hr).mp hfull
  have hbp : bufferNadir (2 ^ k) c e =
      { c with
        nadir_buffer := Function.update c.nadir_buffer c.nadir_write_index e,
        nadir_write_index := c.nadir_read_index,
        nadir_read_index := (c.nadir_read_index + 1) % 2 ^ k } := by
    unfold bufferNadir
    dsimp only
    rw [Nat.and_pow_two_sub_one_eq_mod, hcol, if_pos rfl,
      Nat.and_pow_two_sub_one_eq_mod]
  refine ⟨by rw [hbp], by rw [hbp]; exact Function.update_same _ _ _, ?_⟩
  rw [hbp]
  unfold nadirAvail
  dsimp only
  rcases Nat.lt_or_ge (c.nadir_read_index + 1) (2 ^ k) with hc | hc
  · rw [Nat.mod_eq_of_lt hc,
      show c.nadir_read_index + 2 ^ k - (c.nadir_read_index + 1) =
        2 ^ k - 1 by omega, Nat.mod_eq_of_lt (by omega)]
  · rw [show c.nadir_read_index + 1 = 2 ^ k by omega, Nat.mod_self,
      Nat.sub_zero, Nat.add_mod_right, Nat.mod_eq_of_lt hr]
    omega

/-! ### Claim C8: extremum ring buffers never exceed capacity -/

/-- C8: for a power-of-two capacity 2^k, after any sequence of pushes
into an empty extremum buffer the number of drainable entries is
min (number of pushes) (2^k - 1), which never exceeds the capacity (in
particular after more than 2^k pushes with no reads); and a push into a
full buffer advances the read cursor by exactly one slot, so only the
oldest unread extremum is dropped while the new one is stored.  Both
the peak and the nadir buffer are covered; the push operations are
total functions, so they never block the producer. -/
theorem C8_extremum_buffer_capacity (k : Nat) (hk : 1 ≤ k) :
    (∀ es : List Extremum,
      peakAvail (2 ^ k) (es.foldl (bufferPeak (2 ^ k)) initCore) =
        min es.length (2 ^ k - 1) ∧
      nadirAvail (2 ^ k) (es.foldl (bufferNadir (2 ^ k)) initCore) =
        min es.length (2 ^ k - 1)) ∧
    (∀ (c : TimingCore) (e : Extremum),
      c.peak_write_index < 2 ^ k → c.peak_read_index < 2 ^ k →
      peakAvail (2 ^ k) c = 2 ^ k - 1 →
      (bufferPeak (2 ^ k) c e).peak_read_index =
        (c.peak_read_index + 1) % 2 ^ k ∧
      (bufferPeak (2 ^ k) c e).peak_buffer c.peak_write_index = e ∧
      peakAvail (2 ^ k) (bufferPeak (2 ^ k) c e) = 2 ^ k - 1) ∧
    (∀ (c : TimingCore) (e : Extremum),
      c.nadir_write_index < 2 ^ k → c.nadir_read_index < 2 ^ k →
      nadirAvail (2 ^ k) c = 2 ^ k - 1 →
      (bufferNadir (2 ^ k) c e).nadir_read_index =
        (c.nadir_read_index + 1) % 2 ^ k ∧
      (bufferNadir (2 ^ k) c e).nadir_buffer c.nadir_write_index = e ∧
      nadirAvail (2 ^ k) (bufferNadir (2 ^ k) c e) = 2 ^ k - 1) := by
  refine ⟨fun es => ⟨?_, ?_⟩,
    fun c e => bufferPeak_full k hk c e,
    fun c e => bufferNadir_full k hk c e⟩
  · have h := pushAll_peak_indices (2 ^ k) es
    rw [ringStep_iter k hk, Prod.mk.injEq] at h
    obtain ⟨hw, hr⟩ := h
    unfold peakAvail
    rw [hw, hr]
    exact ringCount_closed k hk es.length
  · have h := pushAll_nadir_indices (2 ^ k) es
    rw [ringStep_iter k hk, Prod.mk.injEq] at h
    obtain ⟨hw, hr⟩ := h
    unfold nadirAvail
    rw [hw, hr]
    exact ringCount_closed k hk es.length

/-- Witness for C8 with capacity 2^3 = 8: after 10 pushes and no reads
the peak buffer holds 7 = 8 - 1 drainable entries, not more than the
capacity. -/
theorem C8_extremum_buffer_capacity_witness :
    1 ≤ 3 ∧
    peakAvail (2 ^ 3)
      ((List.replicate 10 Extremum.zero).foldl (bufferPeak (2 ^ 3))
        initCore) = 7 :=
  ⟨by decide,
   by
     have h :=
       ((C8_extremum_buffer_capacity 3 (by decide)).1
         (List.replicate 10 Extremum.zero)).1
     simpa using h⟩

theorem finalizePeak_bufState (esz : Nat) (c : TimingCore) (ts : Nat) :
    (¬(c.current_peak.valid = true ∧ 0 < c.current_peak.rssi) →
      peakBufState (finalizePeak esz c ts) = peakBufState c) ∧
    ((c.current_peak.valid = true ∧ 0 < c.current_peak.rssi) →
      peakBufState (finalizePeak esz c ts) =
        peakBufState (bufferPeak esz c
          { c.current_peak with
              duration := sub32 ts c.current_peak.first_time })) := by
  constructor
  · intro hg
    simp only [finalizePeak, if_neg hg]
    rfl
  · intro hg
    simp only [finalizePeak, if_pos hg]
    rfl

theorem finalizeNadir_bufState (esz : Nat) (c : TimingCore) (ts : Nat) :
    (¬(c.current_nadir.valid = true ∧ c.current_nadir.rssi < 255) →
      nadirBufState (finalizeNadir esz c ts) = nadirBufState c) ∧
    ((c.current_nadir.valid = true ∧ c.current_nadir.rssi < 255) →
      nadirBufState (finalizeNadir esz c ts) =
        nadirBufState (bufferNadir esz c
          { c.current_nadir with
              duration := sub32 ts c.current_nadir.first_time })) := by
  constructor
  · intro hg
    simp only [finalizeNadir, if_neg hg]
    rfl
  · intro hg
    simp only [finalizeNadir, if_pos hg]
    rfl

theorem finalizeNadir_peakBufState (esz : Nat) (c : TimingCore) (ts : Nat) :
    peakBufState (finalizeNadir esz c ts) = peakBufState c := by
  unfold finalizeNadir bufferNadir peakBufState
  dsimp only
  split
  · split <;> rfl
  · rfl

theorem finalizePeak_nadirBufState (esz : Nat) (c : TimingCore) (ts : Nat) :
    nadirBufState (finalizePeak esz c ts) = nadirBufState c := by
  unfold finalizePeak bufferPeak nadirBufState
  dsimp only
  split
  · split <;> rfl
  · rfl

theorem peakBufState_set_state (x : TimingCore) (S : TimingState) :
    peakBufState { x with state := S } = peakBufState x := rfl

theorem nadirBufState_set_state (x : TimingCore) (S : TimingState) :
    nadirBufState { x with state := S } = nadirBufState x := rfl

theorem updateCurrentPeak_peakBufState (c1 : TimingCore) (nc rc : Int)
    (ts fr : Nat) :
    peakBufState (updateCurrentPeak c1 nc rc ts fr) = peakBufState c1 := by
  unfold updateCurrentPeak
  dsimp only
  split_ifs <;> rfl

theorem updateCurrentPeak_nadirBufState (c1 : TimingCore) (nc rc : Int)
    (ts fr : Nat) :
    nadirBufState (updateCurrentPeak c1 nc rc ts fr) = nadirBufState c1 := by
  unfold updateCurrentPeak
  dsimp only
  split_ifs <;> rfl

theorem updateCurrentNadir_peakBufState (c2 : TimingCore) (nc rc : Int)
    (ts fr : Nat) :
    peakBufState (updateCurrentNadir c2 nc rc ts fr) = peakBufState c2 := by
  unfold updateCurrentNadir
  dsimp only
  split_ifs <;> rfl

theorem updateCurrentNadir_nadirBufState (c2 : TimingCore) (nc rc : Int)
    (ts fr : Nat) :
    nadirBufState (updateCurrentNadir c2 nc rc ts fr) = nadirBufState c2 := by
  unfold updateCurrentNadir
  dsimp only
  split_ifs <;> rfl

theorem processExtremums_peak_cases (esz : Nat) (c : TimingCore)
    (ts fr : Nat) :
    peakBufState (processExtremums esz c ts fr) = peakBufState c ∨
    peakBufState (processExtremums esz c ts fr) =
      peakBufState (finalizePeak esz c ts) := by
  simp only [processExtremums]
  rw [peakBufState_set_state, updateCurrentNadir_peakBufState,
    updateCurrentPeak_peakBufState]
  by_cases hA : c.state.rssi_change ≠ rssiChangeOf c.state.last_rssi fr ∧
      rssiChangeOf c.state.last_rssi fr ≠ 0
  · rw [if_pos hA]
    by_cases hP : c.state.rssi_change > 0
    · rw [if_pos hP]
      exact Or.inr rfl
    · rw [if_neg hP]
      by_cases hN : c.state.rssi_change < 0
      · rw [if_pos hN]
        exact Or.inl (finalizeNadir_peakBufState esz c ts)
      · rw [if_neg hN]
        exact Or.inl rfl
  · rw [if_neg hA]
    exact Or.inl rfl

theorem processExtremums_nadir_cases (esz : Nat) (c : TimingCore)
    (ts fr : Nat) :
    nadirBufState (processExtremums esz c ts fr) = nadirBufState c ∨
    nadirBufState (processExtremums esz c ts fr) =
      nadirBufState (finalizeNadir esz c ts) := by
  simp only [processExtremums]
  rw [nadirBufState_set_state, updateCurrentNadir_nadirBufState,
    updateCurrentPeak_nadirBufState]
  by_cases hA : c.state.rssi_change ≠ rssiChangeOf c.state.last_rssi fr ∧
      rssiChangeOf c.state.last_rssi fr ≠ 0
  · rw [if_pos hA]
    by_cases hP : c.state.rssi_change > 0
    · rw [if_pos hP]
      exact Or.inl (finalizePeak_nadirBufState esz c ts)
    · rw [if_neg hP]
      by_cases hN : c.state.rssi_change < 0
      · rw [if_pos hN]
        exact Or.inr rfl
      · rw [if_neg hN]
        exact Or.inl rfl
  · rw [if_neg hA]
    exact Or.inl rfl

/-- C10: one step of the extremum tracker either leaves a ring buffer
untouched or pushes a single extremum that is valid and, for the peak
buffer, has rssi strictly above 0 (for the nadir buffer, strictly below
255); and a finalized peak whose running maximum is 0, or a finalized
nadir whose running minimum is 255 (or one not valid), is discarded
without touching its buffer. -/
theorem C10_extremum_push_guard (esz : Nat) (c : TimingCore) (ts fr : Nat) :
    (peakBufState (processExtremums esz c ts fr) = peakBufState c ∨
     ∃ e : Extremum, e.valid = true ∧ 0 < e.rssi ∧
       peakBufState (processExtremums esz c ts fr) =
         peakBufState (bufferPeak esz c e)) ∧
    (nadirBufState (processExtremums esz c ts fr) = nadirBufState c ∨
     ∃ e : Extremum, e.valid = true ∧ e.rssi < 255 ∧
       nadirBufState (processExtremums esz c ts fr) =
         nadirBufState (bufferNadir esz c e)) ∧
    (¬(c.current_peak.valid = true ∧ 0 < c.current_peak.rssi) →
      peakBufState (finalizePeak esz c ts) = peakBufState c) ∧
    (¬(c.current_nadir.valid = true ∧ c.current_nadir.rssi < 255) →
      nadirBufState (finalizeNadir esz c ts) = nadirBufState c) := by
  refine ⟨?_, ?_, (finalizePeak_bufState esz c ts).1,
    (finalizeNadir_bufState esz c ts).1⟩
  · rcases processExtremums_peak_cases esz c ts fr with h | h
    · exact Or.inl h
    · by_cases hg : c.current_peak.valid = true ∧ 0 < c.current_peak.rssi
      · refine Or.inr ⟨{ c.current_peak with
            duration := sub32 ts c.current_peak.first_time },
          hg.1, hg.2, ?_⟩
        rw [h, (finalizePeak_bufState esz c ts).2 hg]
      · exact Or.inl (h.trans ((finalizePeak_bufState esz c ts).1 hg))
  · rcases processExtremums_nadir_cases esz c ts fr with h | h
    · exact Or.inl h
    · by_cases hg : c.current_nadir.valid = true ∧ c.current_nadir.rssi < 255
      · refine Or.inr ⟨{ c.current_nadir with
            duration := sub32 ts c.current_nadir.first_time },
          hg.1, hg.2, ?_⟩
        rw [h, (finalizeNadir_bufState esz c ts).2 hg]
      · exact Or.inl (h.trans ((finalizeNadir_bufState esz c ts).1 hg))

/-! ### Claim C9: serial checksum coverage and rejection -/

theorem processBytes_collect (now : Nat) (bd bt : List Nat)
    (bs : List Nat) :
    ∀ (n : NodeMode) (rest : List Nat),
      n.parser.size ≠ 0 →
      n.parser.data.length + bs.length < n.parser.size →
      processBytes now bd bt n (bs ++ rest) =
        processBytes now bd bt
          { n with parser := { n.parser with
              data := n.parser.data ++ bs.map (fun b => b % 256) } } rest := by
  induction bs with
  | nil =>
      intro n rest _ _
      simp
  | cons b bs ih =>
      intro n rest hsz hlen
      have hne : (n.parser.data ++ [b % 256]).length ≠ n.parser.size := by
        simp only [List.length_append, List.length_singleton]
        simp only [List.length_cons] at hlen
        omega
      have hstep : handleSerialByte n now bd bt b =
          ({ n with parser := { n.parser with
              data := n.parser.data ++ [b % 256] } }, none) := by
        unfold handleSerialByte
        dsimp only
        rw [if_neg hsz, if_neg hne]
      have hcons : (b :: bs) ++ rest = b :: (bs ++ rest) := rfl
      rw [hcons]
      simp only [processBytes, hstep, Option.toList, List.nil_append]
      rw [ih _ rest (by simpa using hsz)
        (by simp only [List.length_append, List.length_singleton]
            simp only [List.length_cons] at hlen
            omega)]
      simp [List.append_assoc]

theorem handleSerialByte_resp_wf (n : NodeMode) (now : Nat)
    (bd bt : List Nat) (b : Nat) (r : List Nat)
    (h : (handleSerialByte n now bd bt b).2 = some r) :
    r ≠ [] ∧ r.getLast? = some (calculateChecksum r.dropLast) := by
  simp only [handleSerialByte, handleReadCommand] at h
  split_ifs at h <;> simp only [Option.some.injEq] at h <;>
    first
    | (exact absurd h (by simp))
    | (rw [← h]
       unfold writeChecksum
       exact ⟨by simp, by rw [List.getLast?_concat, List.dropLast_concat]⟩)

theorem processBytes_resp_wf (now : Nat) (bd bt : List Nat) :
    ∀ (bs : List Nat) (n : NodeMode) (r : List Nat),
      r ∈ (processBytes now bd bt n bs).2 →
      r ≠ [] ∧ r.getLast? = some (calculateChecksum r.dropLast) := by
  intro bs
  induction bs with
  | nil =>
      intro n r hr
      simp [processBytes] at hr
  | cons b rest ih =>
      intro n r hr
      simp only [processBytes] at hr
      rw [List.mem_append] at hr
      rcases hr with hr | hr
      · rcases hstep : (handleSerialByte n now bd bt b).2 with _ | resp
        · rw [hstep] at hr
          simp at hr
        · rw [hstep] at hr
          simp only [Option.toList, List.mem_singleton] at hr
          subst hr
          exact handleSerialByte_resp_wf n now bd bt b r hstep
      · exact ih _ r hr

/-- C9 counterexample: the wire message 0x71 0x05 0x76 (write
enter-threshold 5) carries as trailing byte the 8-bit sum of all its
preceding bytes, 0x71 + 0x05 = 0x76, so by the claim it is well formed
and must not be discarded; the code nevertheless discards it (threshold
and stored settings stay 96, nothing emitted), because the checksum it
verifies covers only the payload: 0x71 0x05 0x05 is the message it
accepts. -/
theorem C9_checksum_counterexample :
    calculateChecksum [0x71, 0x05] = 0x76 ∧
    (processBytes 0 [] [] initNode [0x71, 0x05, 0x76]).1.core.state.threshold
      = 96 ∧
    (processBytes 0 [] [] initNode
      [0x71, 0x05, 0x76]).1.settings.enterAtLevel = 96 ∧
    (processBytes 0 [] [] initNode [0x71, 0x05, 0x76]).2 = [] ∧
    (processBytes 0 [] [] initNode [0x71, 0x05, 0x05]).1.core.state.threshold
      = 5 := by
  refine ⟨by decide, by decide, by decide, by decide, by decide⟩

/-- C9 amended: the trailing checksum byte is the 8-bit additive sum of
the payload bytes only - the leading command byte of a write message is
not included (a response message consists of payload plus checksum, so
there it does cover all preceding bytes, third conjunct).  An incoming
write command whose trailing byte does not equal the payload sum is
discarded whole: no response is emitted and the core, the stored
settings and the flags are unchanged; on a match the write handler runs
on the payload. -/
theorem C9_checksum_payload_only (n : NodeMode) (now : Nat)
    (bd bt : List Nat) (cmd : Nat) (payload : List Nat) (ck : Nat)
    (hidle : n.parser.size = 0) (hcmd : 0x50 < cmd) (hcmd2 : cmd < 256)
    (hsz : 0 < getPayloadSize cmd)
    (hlen : payload.length = getPayloadSize cmd)
    (hbytes : ∀ b ∈ payload, b < 256) (hck : ck < 256) :
    (ck ≠ calculateChecksum payload →
      (processBytes now bd bt n (cmd :: payload ++ [ck])).1.core = n.core ∧
      (processBytes now bd bt n (cmd :: payload ++ [ck])).1.settings =
        n.settings ∧
      (processBytes now bd bt n (cmd :: payload ++ [ck])).1.flags =
        n.flags ∧
      (processBytes now bd bt n (cmd :: payload ++ [ck])).2 = []) ∧
    (ck = calculateChecksum payload →
      processBytes now bd bt n (cmd :: payload ++ [ck]) =
        (handleWriteCommand
          { n with parser := { command := 0, size := 0, data := [] } }
          now cmd payload, [])) ∧
    (∀ (bs : List Nat) (r : List Nat),
      r ∈ (processBytes now bd bt n bs).2 →
      r ≠ [] ∧ r.getLast? = some (calculateChecksum r.dropLast)) := by
  have hb : cmd % 256 = cmd := Nat.mod_eq_of_lt hcmd2
  have hmap : payload.map (fun b => b % 256) = payload := by
    have h1 : payload.map (fun b => b % 256) = payload.map id :=
      List.map_congr_left (fun b hbb => Nat.mod_eq_of_lt (hbytes b hbb))
    rw [h1, List.map_id]
  have h1 : handleSerialByte n now bd bt cmd =
      ({ n with parser :=
          { command := cmd, size := getPayloadSize cmd + 1, data := [] } },
       none) := by
    unfold handleSerialByte
    dsimp only
    rw [hb, if_pos hidle, if_pos hcmd, if_pos hsz]
  have hckb : ck % 256 = ck := Nat.mod_eq_of_lt hck
  have hgetD : (payload ++ [ck]).getD payload.length 0 = ck := by
    simp [List.getD_eq_getElem?_getD, List.getElem?_concat_length]
  have hfin : handleSerialByte
      { n with parser :=
          { command := cmd, size := getPayloadSize cmd + 1,
            data := payload } } now bd bt ck =
      (if ck = calculateChecksum payload then
        (handleWriteCommand
          { n with parser := { command := 0, size := 0, data := [] } }
          now cmd payload, none)
       else
        ({ n with parser := { command := 0, size := 0, data := [] } },
         none)) := by
    unfold handleSerialByte
    dsimp only
    rw [hckb, if_neg (by simp),
      if_pos (by simp only [List.length_append, List.length_singleton]; omega)]
    rw [List.dropLast_concat,
      show getPayloadSize cmd + 1 - 1 = getPayloadSize cmd by omega,
      ← hlen, hgetD]
  have hrun : processBytes now bd bt n (cmd :: payload ++ [ck]) =
      (if ck = calculateChecksum payload then
        (handleWriteCommand
          { n with parser := { command := 0, size := 0, data := [] } }
          now cmd payload, [])
       else
        ({ n with parser := { command := 0, size := 0, data := [] } },
         [])) := by
    have hcons : cmd :: payload ++ [ck] = cmd :: (payload ++ [ck]) := rfl
    rw [hcons]
    simp only [processBytes, h1, Option.toList, List.nil_append]
    rw [processBytes_collect now bd bt payload _ [ck]
      (by simp) (by simp [hlen])]
    simp only [hmap, List.nil_append]
    simp only [processBytes, hfin]
    split_ifs <;> rfl
  refine ⟨?_, ?_, fun bs r hr => processBytes_resp_wf now bd bt bs n r hr⟩
  · intro hne
    rw [hrun, if_neg hne]
    exact ⟨rfl, rfl, rfl, rfl⟩
  · intro heq
    rw [hrun, if_pos heq]

/-- Witness for C9 amended: the write-enter-threshold message with a
wrong trailing byte 0x09 (payload sum is 0x05) leaves the constructed
node state untouched and emits nothing. -/
theorem C9_checksum_payload_only_witness :
    (initNode.parser.size = 0 ∧ (0x50 : Nat) < 0x71 ∧ (0x71 : Nat) < 256 ∧
     0 < getPayloadSize 0x71 ∧
     ([0x05] : List Nat).length = getPayloadSize 0x71 ∧
     (∀ b ∈ ([0x05] : List Nat), b < 256) ∧ (0x09 : Nat) < 256 ∧
     (0x09 : Nat) ≠ calculateChecksum [0x05]) ∧
    ((processBytes 0 [] [] initNode (0x71 :: [0x05] ++ [0x09])).1.core =
      initNode.core ∧
     (processBytes 0 [] [] initNode (0x71 :: [0x05] ++ [0x09])).1.settings =
      initNode.settings ∧
     (processBytes 0 [] [] initNode (0x71 :: [0x05] ++ [0x09])).1.flags =
      initNode.flags ∧
     (processBytes 0 [] [] initNode (0x71 :: [0x05] ++ [0x09])).2 = []) :=
  ⟨⟨by decide, by decide, by decide, by decide, by decide,
    by decide, by decide, by decide⟩,
   (C9_checksum_payload_only initNode 0 [] [] 0x71 [0x05] 0x09
     (by decide) (by decide) (by decide) (by decide) (by decide)
     (by decide) (by decide)).1 (by decide)⟩

end StarForge
